import Mathlib

/-!
Verification of the roo-git issue-claim workflow.

Shallow embedding of the core logic of the repository:
* the gh utility module (src/unnamed/part_001): `convertToBranchName`,
  `isGitRepository` (abstracted to its boolean outcome), `searchIssues`,
  `findReadyIssues`, `addLabelToIssue`, `claimIssue`;
* the orchestrating extension (src/src/extension.ts): `_loadConfiguration`,
  `_checkForReadyIssues`, and the concurrency structure of the claim paths;
* the configuration schema contributed by src/package.json.

External command execution is modelled as an oracle: a function from the
index of the invocation (in program order) to the command's outcome, so a
run of a function is deterministic given the oracle.  Strings are modelled
by Lean `String`/`List Char`; the ASCII fragment relevant to the claims is
modelled exactly (JS `\w` is `[A-Za-z0-9_]`, `\s` is the whitespace class;
`String.prototype.toLowerCase` agrees with `Char.toLower` on ASCII).
-/

/-- ASCII apostrophe (code point 39), spelled by code point. -/
def apos : String := String.mk [Char.ofNat 39]

/-- ASCII double quote (code point 34), spelled by code point. -/
def dquote : String := String.mk [Char.ofNat 34]

/-- ASCII hyphen-minus, the replacement character of the kebab-case rewrite. -/
def hyphenChar : Char := Char.ofNat 45

/-- ASCII underscore; `\w` in a JS regex matches it. -/
def underscoreChar : Char := Char.ofNat 95

/-- ASCII space. -/
def spaceChar : Char := Char.ofNat 32

/-- JS word character: the regex class `\w`, i.e. `[A-Za-z0-9_]`
(part_001 line 62 removes `[^\w\s-]`). -/
def isWordCharJS (c : Char) : Bool := c.isAlpha || c.isDigit || c == underscoreChar

/-- JS whitespace class `\s` (space, tab, LF, VT, FF, CR, NBSP; the
remaining Unicode space code points play no role in any claim and every
definition below uses this same class on both the code and the spec side). -/
def isSpaceJS (c : Char) : Bool :=
  c == spaceChar || c == Char.ofNat 9 || c == Char.ofNat 10 || c == Char.ofNat 13 ||
  c == Char.ofNat 11 || c == Char.ofNat 12 || c == Char.ofNat 160

/-- Semantics of the global regex replacement `replace(/P+/g, rep)` for a
single-character class `P` and single-character replacement: each maximal
run of characters satisfying `p` is rewritten to the single character
`rep`.  The `inRun` flag records whether the previous character was part of
a run already rewritten. -/
def collapseRuns (p : Char → Bool) (rep : Char) : Bool → List Char → List Char
  | _, [] => []
  | inRun, c :: cs =>
    if p c then
      if inRun then collapseRuns p rep true cs
      else rep :: collapseRuns p rep true cs
    else c :: collapseRuns p rep false cs

/-- Drop the longest suffix whose characters satisfy `p`. -/
def dropTrailing (p : Char → Bool) (l : List Char) : List Char :=
  (l.reverse.dropWhile p).reverse

/-- JS `String.prototype.trim()`: strip whitespace from both ends
(part_001 line 65). -/
def jsTrim (l : List Char) : List Char :=
  dropTrailing isSpaceJS (l.dropWhile isSpaceJS)

/-- The character class kept by the code's first rewrite
`replace(/[^\w\s-]/g, "")` (part_001 line 62): word characters,
whitespace, and hyphens survive. -/
def codeKeepChar (c : Char) : Bool := isWordCharJS c || isSpaceJS c || c == hyphenChar

/-- The kebab-case pipeline of `convertToBranchName` (part_001 lines 58-66),
phase by phase: lowercase, remove `[^\w\s-]`, `\s+` to `-`, `-+` to `-`,
`trim()`, strip `^-+|-+$`. -/
def kebabCore (title : List Char) : List Char :=
  let lower := title.map Char.toLower
  let noSpecial := lower.filter codeKeepChar
  let dashed := collapseRuns isSpaceJS hyphenChar false noSpecial
  let collapsed := collapseRuns (fun c => c == hyphenChar) hyphenChar false dashed
  dropTrailing (fun c => c == hyphenChar)
    ((jsTrim collapsed).dropWhile (fun c => c == hyphenChar))

/-- `convertToBranchName` (part_001 lines 56-70): kebab-case the title and
prefix `issue-{number}-`. -/
def convertToBranchName (issueNumber : Nat) (issueTitle : String) : String :=
  "issue-" ++ toString issueNumber ++ "-" ++ String.mk (kebabCore issueTitle.toList)

/-- Modelled from the spec: the derivation rule exactly as claim C3 words it,
keeping only letters, digits, whitespace and hyphens (no underscore), for
comparison with the code's `convertToBranchName`. -/
def specC3KeepChar (c : Char) : Bool :=
  c.isAlpha || c.isDigit || isSpaceJS c || c == hyphenChar

/-- Modelled from the spec: branch-name derivation following claim C3's
wording verbatim: lower-case; strip every character that is not a letter,
digit, whitespace, or hyphen; collapse whitespace runs to one hyphen;
collapse hyphen runs; trim leading/trailing hyphens; prefix. -/
def deriveBranchNameSpecC3 (issueNumber : Nat) (issueTitle : String) : String :=
  let lower := issueTitle.toList.map Char.toLower
  let stripped := lower.filter specC3KeepChar
  let dashed := collapseRuns isSpaceJS hyphenChar false stripped
  let collapsed := collapseRuns (fun c => c == hyphenChar) hyphenChar false dashed
  "issue-" ++ toString issueNumber ++ "-" ++
    String.mk (dropTrailing (fun c => c == hyphenChar)
      (collapsed.dropWhile (fun c => c == hyphenChar)))

/-- The character class of the amended claim C3: letters, digits,
underscore, whitespace, hyphen. -/
def amendedKeepChar (c : Char) : Bool :=
  c.isAlpha || c.isDigit || c == underscoreChar || isSpaceJS c || c == hyphenChar

/-- The amended C3 derivation rule: as the spec words it, except that the
stripping phase also keeps underscores (JS `\w` includes `_`), and without
the vacuous `trim()` step. -/
def deriveBranchNameAmended (issueNumber : Nat) (issueTitle : String) : String :=
  let lower := issueTitle.toList.map Char.toLower
  let stripped := lower.filter amendedKeepChar
  let dashed := collapseRuns isSpaceJS hyphenChar false stripped
  let collapsed := collapseRuns (fun c => c == hyphenChar) hyphenChar false dashed
  "issue-" ++ toString issueNumber ++ "-" ++
    String.mk (dropTrailing (fun c => c == hyphenChar)
      (collapsed.dropWhile (fun c => c == hyphenChar)))

/-- Outcome of one external command invocation, as seen by `execAsync`
(part_001 lines 9-28): the resolved stdout, or the rejection message. -/
inductive CmdResult where
  | ok (stdout : String)
  | err (message : String)
deriving DecidableEq, Repr

/-- The abstract identity of a tracker/git command issued by the claim
protocol, used to record execution traces. -/
inductive GhCmd where
  | issueEditAddLabel (issueNumber : Nat) (labelName : String)
  | labelCreate (labelName color description : String)
  | gitCheckoutNewBranch (branch : String)
deriving DecidableEq, Repr

/-- Error wrapping of `executeGitHubCommand` (part_001 lines 90-95): a
failed invocation rethrows `Failed to execute command: {command}. Error:
{message}`, built from the unsuffixed command string. -/
def wrapErr (command message : String) : String :=
  "Failed to execute command: " ++ command ++ ". Error: " ++ message

/-- The command string `gh issue edit {n} --add-label "{label}"`
(part_001 line 275). -/
def editCmdStr (issueNumber : Nat) (labelName : String) : String :=
  "gh issue edit " ++ toString issueNumber ++ " --add-label " ++ dquote ++ labelName ++ dquote

/-- The command string of `gh label create` (part_001 lines 288-293); the
description flag is appended only when the description is non-empty. -/
def labelCreateCmdStr (labelName color description : String) : String :=
  "gh label create " ++ dquote ++ labelName ++ dquote ++ " --color " ++ color ++
    (if description == "" then "" else " --description " ++ dquote ++ description ++ dquote)

/-- Does the first list occur as the initial segment of the second? -/
def leadsWith : List Char → List Char → Bool
  | [], _ => true
  | _ :: _, [] => false
  | a :: as, b :: bs => a == b && leadsWith as bs

/-- Does the second list occur contiguously inside the first argument list?
(`needle` first). -/
def containsSub (needle : List Char) : List Char → Bool
  | [] => needle.isEmpty
  | c :: rest => leadsWith needle (c :: rest) || containsSub needle rest

/-- JS `String.prototype.includes`. -/
def strIncludes (haystack needle : String) : Bool :=
  containsSub needle.toList haystack.toList

/-- The label-not-found detection of `addLabelToIssue` (part_001 lines
281-284): the error message contains `'{label}' not found` or
`"{label}" not found`. -/
def labelNotFoundIn (errorMessage labelName : String) : Bool :=
  strIncludes errorMessage (apos ++ labelName ++ apos ++ " not found") ||
  strIncludes errorMessage (dquote ++ labelName ++ dquote ++ " not found")

/-- Advance a command oracle past `k` already-consumed invocations. -/
def shiftEnv (env : Nat → CmdResult) (k : Nat) : Nat → CmdResult :=
  fun i => env (i + k)

/-- `addLabelToIssue` (part_001 lines 265-305), run against a command
oracle; returns the outcome together with the trace of commands issued.
Control flow transcribed from the source: try the add; on failure, if the
wrapped message matches the label-not-found pattern, create the label and
retry the add once (a failure of the create or of the retry propagates);
any other failure rethrows immediately. -/
def runAddLabelToIssue (env : Nat → CmdResult) (issueNumber : Nat)
    (labelName color description : String) : Except String Unit × List GhCmd :=
  match env 0 with
  | CmdResult.ok _ => (Except.ok (), [GhCmd.issueEditAddLabel issueNumber labelName])
  | CmdResult.err m0 =>
    if labelNotFoundIn (wrapErr (editCmdStr issueNumber labelName) m0) labelName then
      match env 1 with
      | CmdResult.err m1 =>
        (Except.error (wrapErr (labelCreateCmdStr labelName color description) m1),
         [GhCmd.issueEditAddLabel issueNumber labelName,
          GhCmd.labelCreate labelName color description])
      | CmdResult.ok _ =>
        match env 2 with
        | CmdResult.ok _ =>
          (Except.ok (),
           [GhCmd.issueEditAddLabel issueNumber labelName,
            GhCmd.labelCreate labelName color description,
            GhCmd.issueEditAddLabel issueNumber labelName])
        | CmdResult.err m2 =>
          (Except.error (wrapErr (editCmdStr issueNumber labelName) m2),
           [GhCmd.issueEditAddLabel issueNumber labelName,
            GhCmd.labelCreate labelName color description,
            GhCmd.issueEditAddLabel issueNumber labelName])
    else
      (Except.error (wrapErr (editCmdStr issueNumber labelName) m0),
       [GhCmd.issueEditAddLabel issueNumber labelName])

/-- A GitHub issue as used by the claim protocol (part_001 lines 33-39). -/
structure GitHubIssue where
  number : Nat
  title : String
  url : String
  labels : List String
deriving DecidableEq, Repr

/-- Result of the `claimIssue` operation (part_001 lines 44-48). -/
structure ClaimIssueResult where
  success : Bool
  branchName : String
  error : Option String
deriving DecidableEq, Repr

/-- Environment of one `claimIssue` run: the boolean outcome of
`isGitRepository()` (part_001 lines 113-170 — that function catches all of
its own errors and only ever resolves to a boolean), plus the command
oracle for the `executeGitHubCommand` invocations, indexed in program
order. -/
structure ClaimEnv where
  inGitRepo : Bool
  exec : Nat → CmdResult

/-- The error thrown at part_001 lines 324-328 (and 181-185) when no
repository is supplied and the working directory is not a git repository.
A configured repository is the empty string when unset; the TS falsiness
test `!repository` is the emptiness test. -/
def notInRepoMsg : String :=
  "Not in a git repository. Please specify a repository in the settings (roo-git.repository) or run from within a git repository."

/-- Step 1 of the claim protocol (part_001 lines 331-337): add the
`Claimed by Agent` label, creating it on demand. -/
def claimStep1 (exec : Nat → CmdResult) (issueNumber : Nat) :
    Except String Unit × List GhCmd :=
  runAddLabelToIssue exec issueNumber "Claimed by Agent" "0E8A16" "Issue claimed by Roo agent"

/-- The branch-reference label text (part_001 line 356). -/
def branchLabelOf (branchName : String) : String := "Branch: " ++ branchName

/-- Step 4 of the claim protocol (part_001 lines 356-363): add the
`Branch: {branchName}` label, creating it on demand. -/
def claimStep4 (exec : Nat → CmdResult) (issueNumber : Nat) (branchName : String) :
    Except String Unit × List GhCmd :=
  runAddLabelToIssue exec issueNumber (branchLabelOf branchName) "0075CA" "Branch created for this issue"

/-- The commands issued by step 3 (part_001 lines 342-353): `git checkout
-b` runs only inside a git repository; its outcome is read and discarded
(the catch at lines 347-350 swallows any failure), so only the consumed
invocation slot and the trace entry remain visible. -/
def claimBranchTrace (env : ClaimEnv) (issue : GitHubIssue) : List GhCmd :=
  if env.inGitRepo then
    [GhCmd.gitCheckoutNewBranch (convertToBranchName issue.number issue.title)]
  else []

/-- `claimIssue` (part_001 lines 317-375) against a command oracle.  The
outer try/catch converts every thrown error into a structured result with
`success := false` and `branchName := ""`; the returned trace lists the
commands issued.  The repository argument is the configured string, `""`
meaning unset. -/
def claimIssue (env : ClaimEnv) (issue : GitHubIssue) (repository : String) :
    ClaimIssueResult × List GhCmd :=
  if repository == "" && !env.inGitRepo then
    ({ success := false, branchName := "", error := some notInRepoMsg }, [])
  else
    match claimStep1 env.exec issue.number with
    | (Except.error e, tr1) =>
      ({ success := false, branchName := "", error := some e }, tr1)
    | (Except.ok _, tr1) =>
      match claimStep4 (shiftEnv env.exec (tr1.length + (claimBranchTrace env issue).length))
          issue.number (convertToBranchName issue.number issue.title) with
      | (Except.error e, tr4) =>
        ({ success := false, branchName := "", error := some e },
         tr1 ++ claimBranchTrace env issue ++ tr4)
      | (Except.ok _, tr4) =>
        ({ success := true, branchName := convertToBranchName issue.number issue.title,
           error := none },
         tr1 ++ claimBranchTrace env issue ++ tr4)

/-- A label object of the JSON issue payload (part_001 lines 208-213). -/
structure RawLabel where
  name : String
deriving DecidableEq, Repr

/-- An issue as decoded from the `gh issue list --json` output
(part_001 lines 208-213). -/
structure RawIssue where
  number : Nat
  title : String
  url : String
  labels : List RawLabel
deriving DecidableEq, Repr

/-- Outcome of the fetch phase of `searchIssues`: the list command failed,
the JSON decode failed, or a decoded issue list was produced. -/
inductive FetchOutcome where
  | execFail (message : String)
  | parseFail (message : String)
  | parsed (issues : List RawIssue)
deriving DecidableEq, Repr

/-- Environment of one `searchIssues` run: the `isGitRepository()` outcome
and the fetch outcome. -/
structure SearchEnv where
  inGitRepo : Bool
  fetch : FetchOutcome

/-- The filter predicate of part_001 lines 218-224: keep the issue iff it
carries none of the excluded labels (`!excludeLabels.some (l =>
issueLabels.includes(l))`). -/
def keepIssue (excludeLabels : List String) (issue : RawIssue) : Bool :=
  !(excludeLabels.any fun excludeLabel => (issue.labels.map RawLabel.name).contains excludeLabel)

/-- Modelled from the spec (claim C5's wording): an issue is kept exactly
when it carries none of the exclude labels. -/
def specKeep (excludeLabels : List String) (issue : RawIssue) : Bool :=
  excludeLabels.all fun excludeLabel => !((issue.labels.map RawLabel.name).contains excludeLabel)

/-- Shape conversion of part_001 lines 231-236: flatten the label objects
to their names. -/
def convertIssue (issue : RawIssue) : GitHubIssue :=
  { number := issue.number, title := issue.title, url := issue.url,
    labels := issue.labels.map RawLabel.name }

/-- The local post-processing of `searchIssues` on the fetched list
(part_001 lines 215-236): exclude-label filtering (only applied when the
exclude set is non-empty), truncation to the requested limit, and shape
conversion, in that order and preserving the fetched order. -/
def processFetchedIssues (issues : List RawIssue) (excludeLabels : List String)
    (limit : Nat) : List GitHubIssue :=
  let filteredIssues :=
    if excludeLabels.length > 0 then issues.filter (keepIssue excludeLabels) else issues
  (filteredIssues.take limit).map convertIssue

/-- The raw fetch page size (part_001 lines 200-201): at least twice the
limit, floor 30, whenever exclude labels are present. -/
def fetchLimitFor (excludeLabels : List String) (limit : Nat) : Nat :=
  if excludeLabels.length > 0 then max (limit * 2) 30 else limit

/-- The `gh issue list` command string built at part_001 lines 188-202. -/
def listCmdStr (includeLabels : List String) (fetchLimit : Nat) : String :=
  "gh issue list --json number,title,url,labels" ++
    (includeLabels.foldl (fun acc l => acc ++ " --label " ++ dquote ++ l ++ dquote) "") ++
    " --limit " ++ toString fetchLimit

/-- The body of the `try` block of `searchIssues` (part_001 lines 178-236):
the missing-repository error, a command failure (wrapped by
`executeGitHubCommand`), or a JSON decode failure each raise; otherwise
the processed list is produced. -/
def searchIssuesBody (env : SearchEnv) (includeLabels excludeLabels : List String)
    (limit : Nat) (repository : String) : Except String (List GitHubIssue) :=
  if repository == "" && !env.inGitRepo then Except.error notInRepoMsg
  else
    match env.fetch with
    | FetchOutcome.execFail m =>
      Except.error (wrapErr (listCmdStr includeLabels (fetchLimitFor excludeLabels limit)) m)
    | FetchOutcome.parseFail m => Except.error m
    | FetchOutcome.parsed issues =>
      Except.ok (processFetchedIssues issues excludeLabels limit)

/-- `searchIssues` (part_001 lines 172-241): the catch at lines 237-240
absorbs every raised error into an empty result list. -/
def searchIssues (env : SearchEnv) (includeLabels excludeLabels : List String)
    (limit : Nat) (repository : String) : List GitHubIssue :=
  match searchIssuesBody env includeLabels excludeLabels limit repository with
  | Except.ok issues => issues
  | Except.error _ => []

/-- `findReadyIssues` (part_001 lines 249-253). -/
def findReadyIssues (env : SearchEnv) (repository : String) : List GitHubIssue :=
  searchIssues env ["Ready for Plan"] ["Claimed by Agent"] 10 repository

/-- Environment of one poll tick of `_checkForReadyIssues`
(extension.ts lines 252-296). -/
structure PollEnv where
  inGitRepo : Bool
  fetch : FetchOutcome
  claimExec : Nat → CmdResult

/-- Observable outcome of one poll tick. -/
inductive TickOutcome where
  | skippedUnauthenticated
  | repoError (message : String)
  | noIssues
  | claimedFirst (issue : GitHubIssue) (result : ClaimIssueResult)
deriving Repr

/-- The error message posted to the webview at extension.ts lines 269-276. -/
def pollRepoErrMsg : String :=
  "Not in a git repository. Please configure the repository in settings."

/-- `_checkForReadyIssues` (extension.ts lines 252-296): skip when not
authenticated; when no repository is configured and the working directory
is not a git repository, post an error notification and stop (without
fetching); otherwise fetch the ready issues and claim only the first one
found (`_processReadyIssue`, lines 302-326). -/
def checkForReadyIssues (authenticated : Bool) (repository : String) (env : PollEnv) :
    TickOutcome :=
  if !authenticated then TickOutcome.skippedUnauthenticated
  else if repository == "" && !env.inGitRepo then TickOutcome.repoError pollRepoErrMsg
  else
    match findReadyIssues { inGitRepo := env.inGitRepo, fetch := env.fetch } repository with
    | [] => TickOutcome.noIssues
    | issue :: _ =>
      TickOutcome.claimedFirst issue
        (claimIssue { inGitRepo := env.inGitRepo, exec := env.claimExec } issue repository).1

/-- Number of claim invocations a tick outcome represents. -/
def tickClaimCount : TickOutcome → Nat
  | TickOutcome.claimedFirst _ _ => 1
  | _ => 0

/-- `_loadConfiguration` (extension.ts lines 81-89): the polling interval is
`config.get("issuePollingIntervalSeconds", 10)` — the stored user value
when one is present, else the default 10.  VS Code's configuration reader
returns the stored value verbatim; the schema `minimum` of package.json is
advisory (settings-UI validation), not a runtime clamp, and the extension
code applies no clamp of its own. -/
def loadPollingIntervalSeconds (stored : Option Int) : Int :=
  match stored with
  | some v => v
  | none => 10

/-- The `minimum` declared for `roo-git.issuePollingIntervalSeconds` in
src/package.json (lines 42-47). -/
def schemaMinimumSeconds : Int := 5

/-- The milliseconds passed to `setInterval` by `_startIssuePolling`
(extension.ts lines 236-238): the loaded seconds times 1000. -/
def issuePollingIntervalMs (stored : Option Int) : Int :=
  loadPollingIntervalSeconds stored * 1000

/-- The yield points of one asynchronous claim request.  Both claim entry
points — the `claimIssue` webview message handler (extension.ts lines
119-161) and `_processReadyIssue` on a poll tick (lines 302-326) — invoke
`claimIssue` directly; neither reads or writes any in-flight flag, and the
class (extension.ts lines 52-60) declares no such state.  Each step is the
code between two `await`s of part_001 lines 317-375; at each `await` the
handler yields to the event loop. -/
inductive ClaimStep where
  | checkRepoStep
  | addClaimLabelStep
  | createBranchStep
  | addBranchLabelStep
  | emitResultStep
deriving DecidableEq, BEq, Repr

/-- The program order of one claim request's steps. -/
def claimProtocolSteps : List ClaimStep :=
  [ClaimStep.checkRepoStep, ClaimStep.addClaimLabelStep, ClaimStep.createBranchStep,
   ClaimStep.addBranchLabelStep, ClaimStep.emitResultStep]

/-- The events of the claim request tagged `id`. -/
def taskTrace (id : Bool) : List (Bool × ClaimStep) :=
  claimProtocolSteps.map (fun s => (id, s))

/-- `Interleaving xs ys zs`: `zs` is an order-preserving merge of `xs` and
`ys`. -/
inductive Interleaving {α : Type} : List α → List α → List α → Prop where
  | nil : Interleaving [] [] []
  | left (x : α) {xs ys zs : List α} :
      Interleaving xs ys zs → Interleaving (x :: xs) ys (x :: zs)
  | right (y : α) {xs ys zs : List α} :
      Interleaving xs ys zs → Interleaving xs (y :: ys) (y :: zs)

/-- The reachable event orders of two concurrent claim requests.  Because
no shared state gates progress (no in-flight flag exists anywhere in
extension.ts), each request's next step becomes enabled as soon as its
awaited command resolves, so with external command latencies free, exactly
the order-preserving interleavings of the two step sequences are
reachable. -/
def ReachableTwoClaims (t : List (Bool × ClaimStep)) : Prop :=
  Interleaving (taskTrace false) (taskTrace true) t

/-- Index of the first occurrence of event `e` in trace `t`. -/
def firstIndexOf (t : List (Bool × ClaimStep)) (e : Bool × ClaimStep) : Nat :=
  t.findIdx (fun x => x.1 == e.1 && x.2 == e.2)

/-- The serialization property claim C1 asserts: one request's result is
emitted before the other request's first label-add step begins. -/
def SerializedPair (t : List (Bool × ClaimStep)) : Prop :=
  firstIndexOf t (false, ClaimStep.emitResultStep) <
    firstIndexOf t (true, ClaimStep.addClaimLabelStep) ∨
  firstIndexOf t (true, ClaimStep.emitResultStep) <
    firstIndexOf t (false, ClaimStep.addClaimLabelStep)

/-- The fully alternating schedule of two claim requests: each request's
label-add begins before the other produces its result. -/
def tBad : List (Bool × ClaimStep) :=
  [(false, ClaimStep.checkRepoStep), (true, ClaimStep.checkRepoStep),
   (false, ClaimStep.addClaimLabelStep), (true, ClaimStep.addClaimLabelStep),
   (false, ClaimStep.createBranchStep), (true, ClaimStep.createBranchStep),
   (false, ClaimStep.addBranchLabelStep), (true, ClaimStep.addBranchLabelStep),
   (false, ClaimStep.emitResultStep), (true, ClaimStep.emitResultStep)]

/-- Oracle of a claim run whose step 1 add succeeds, whose branch creation
fails, and whose step 4 add succeeds. -/
def envBranchFail : ClaimEnv :=
  { inGitRepo := true,
    exec := fun i => if i == 1 then CmdResult.err "branch already exists" else CmdResult.ok "" }

/-- A concrete issue for the branch-failure scenario. -/
def issueBranchFail : GitHubIssue :=
  { number := 5, title := "Add logging", url := "u5", labels := [] }

/-- Oracle of a claim run whose step 1 add succeeds and whose step 4 add
fails with a message that is not a label-not-found message. -/
def envStep4Fail : ClaimEnv :=
  { inGitRepo := false,
    exec := fun i => if i == 0 then CmdResult.ok "" else CmdResult.err "boom" }

/-- A concrete issue for the step-4-failure scenario. -/
def issueStep4Fail : GitHubIssue :=
  { number := 7, title := "Fix the bug", url := "u7", labels := [] }

/-- Oracle for the no-repository scenario. -/
def envNoRepo : ClaimEnv :=
  { inGitRepo := false, exec := fun _ => CmdResult.ok "" }

/-- Oracle whose first add fails with a label-not-found message for label
`L`, whose create succeeds, and whose retried add fails. -/
def envRetryFail : Nat → CmdResult := fun i =>
  if i == 0 then CmdResult.err (apos ++ "L" ++ apos ++ " not found")
  else if i == 1 then CmdResult.ok ""
  else CmdResult.err "still failing"

/-- Oracle whose first add fails with a label-not-found message for label
`L`, whose create succeeds, and whose retried add succeeds. -/
def envRetryOk : Nat → CmdResult := fun i =>
  if i == 0 then CmdResult.err (apos ++ "L" ++ apos ++ " not found")
  else CmdResult.ok ""

/-- Oracle whose first add fails with a message that does not match the
label-not-found pattern. -/
def envNoMatch : Nat → CmdResult := fun _ => CmdResult.err "permission denied"

theorem dropWhile_of_all_false (p : Char → Bool) :
    ∀ l : List Char, (∀ c ∈ l, p c = false) → l.dropWhile p = l := by
  intro l h
  cases l with
  | nil => rfl
  | cons c t => simp [List.dropWhile_cons, h c (by simp)]

theorem dropTrailing_of_all_false (p : Char → Bool) (l : List Char)
    (h : ∀ c ∈ l, p c = false) : dropTrailing p l = l := by
  unfold dropTrailing
  rw [dropWhile_of_all_false p l.reverse (fun c hc => h c (List.mem_reverse.mp hc)),
    List.reverse_reverse]

theorem mem_collapseRuns (p : Char → Bool) (rep : Char) :
    ∀ (l : List Char) (b : Bool) (c : Char),
      c ∈ collapseRuns p rep b l → c = rep ∨ (c ∈ l ∧ p c = false) := by
  intro l
  induction l with
  | nil => intro b c hc; simp [collapseRuns] at hc
  | cons a t ih =>
    intro b c hc
    rw [collapseRuns] at hc
    cases hpa : p a with
    | true =>
      rw [hpa, if_pos rfl] at hc
      cases b with
      | true =>
        rw [if_pos rfl] at hc
        rcases ih true c hc with h | ⟨hmem, hp⟩
        · exact Or.inl h
        · exact Or.inr ⟨List.mem_cons_of_mem a hmem, hp⟩
      | false =>
        rw [if_neg Bool.false_ne_true] at hc
        rcases List.mem_cons.mp hc with h | h
        · exact Or.inl h
        · rcases ih true c h with h2 | ⟨hmem, hp⟩
          · exact Or.inl h2
          · exact Or.inr ⟨List.mem_cons_of_mem a hmem, hp⟩
    | false =>
      rw [hpa, if_neg Bool.false_ne_true] at hc
      rcases List.mem_cons.mp hc with h | h
      · subst h; exact Or.inr ⟨List.mem_cons_self c t, hpa⟩
      · rcases ih false c h with h2 | ⟨hmem, hp⟩
        · exact Or.inl h2
        · exact Or.inr ⟨List.mem_cons_of_mem a hmem, hp⟩

theorem no_space_after_collapses (l : List Char) (c : Char)
    (hc : c ∈ collapseRuns (fun c => c == hyphenChar) hyphenChar false
            (collapseRuns isSpaceJS hyphenChar false l)) :
    isSpaceJS c = false := by
  rcases mem_collapseRuns _ _ _ _ _ hc with h | ⟨h, _⟩
  · subst h; decide
  · rcases mem_collapseRuns _ _ _ _ _ h with h2 | ⟨_, h2⟩
    · subst h2; decide
    · exact h2

/-- C3 counterexample: the code's first rewrite removes `[^\w\s-]`, and JS
`\w` keeps underscores, so `convertToBranchName 1 "a_b"` keeps the
underscore while the claimed rule (strip every character that is not a
letter, digit, whitespace, or hyphen) deletes it. -/
theorem c3_counterexample :
    convertToBranchName 1 "a_b" = "issue-1-a_b" ∧
    deriveBranchNameSpecC3 1 "a_b" = "issue-1-ab" ∧
    ("issue-1-a_b" : String) ≠ "issue-1-ab" := by
  refine ⟨by decide, by decide, by decide⟩

/-- C3 amended: the derivation lower-cases the title, strips every
character that is not a letter, digit, underscore, whitespace, or hyphen,
collapses whitespace runs to one hyphen, collapses hyphen runs, trims
leading/trailing hyphens and prefixes `issue-{n}-`; it is pure and
deterministic (a total Lean function), and maps the claim's example to
`issue-42-fix-the-bug-now`. -/
theorem c3_amended :
    (∀ (n : Nat) (t : String),
      convertToBranchName n t = deriveBranchNameAmended n t) ∧
    convertToBranchName 42 "Fix the Bug!!  now" = "issue-42-fix-the-bug-now" := by
  constructor
  · intro n t
    have hkeep : codeKeepChar = amendedKeepChar := by
      funext c
      simp [codeKeepChar, amendedKeepChar, isWordCharJS, Bool.or_assoc]
    simp only [convertToBranchName, kebabCore, deriveBranchNameAmended, hkeep]
    have hX : jsTrim (collapseRuns (fun c => c == hyphenChar) hyphenChar false
        (collapseRuns isSpaceJS hyphenChar false
          ((t.toList.map Char.toLower).filter amendedKeepChar))) =
        collapseRuns (fun c => c == hyphenChar) hyphenChar false
          (collapseRuns isSpaceJS hyphenChar false
            ((t.toList.map Char.toLower).filter amendedKeepChar)) := by
      unfold jsTrim
      rw [dropWhile_of_all_false _ _ (fun c hc => no_space_after_collapses _ c hc),
        dropTrailing_of_all_false _ _ (fun c hc => no_space_after_collapses _ c hc)]
    rw [hX]
  · decide

theorem not_any_eq_all_not {α : Type} (p : α → Bool) (l : List α) :
    (!(l.any p)) = l.all fun a => !(p a) := by
  induction l with
  | nil => rfl
  | cons x t ih => simp [List.any_cons, List.all_cons, Bool.not_or, ih]

theorem keepIssue_eq_specKeep (excludeLabels : List String) (issue : RawIssue) :
    keepIssue excludeLabels issue = specKeep excludeLabels issue := by
  simp only [keepIssue, specKeep]
  exact not_any_eq_all_not _ _

theorem filter_specKeep_nil (l : List RawIssue) : l.filter (specKeep []) = l := by
  induction l with
  | nil => rfl
  | cons x t ih =>
    rw [List.filter_cons]
    have h : specKeep [] x = true := rfl
    rw [h, if_pos rfl, ih]

/-- C5: the local include/exclude post-processing of `searchIssues` is
exactly spec-side filtering (keep precisely the fetched issues carrying
none of the exclude labels) followed by truncation to the requested limit,
the result is an order-preserving selection from the fetched list (no
re-sort), `searchIssues` returns that processing of a successfully decoded
fetch, and the claim's two-issue example evaluates as stated. -/
theorem c5_exclude_filter_correct :
    (∀ (issues : List RawIssue) (excludeLabels : List String) (limit : Nat),
      processFetchedIssues issues excludeLabels limit =
        ((issues.filter (specKeep excludeLabels)).take limit).map convertIssue) ∧
    (∀ (issues : List RawIssue) (excludeLabels : List String) (limit : Nat),
      ∃ sub : List RawIssue, List.Sublist sub issues ∧
        processFetchedIssues issues excludeLabels limit = sub.map convertIssue) ∧
    (∀ (inGitRepo : Bool) (issues : List RawIssue)
        (includeLabels excludeLabels : List String) (limit : Nat),
      searchIssues { inGitRepo := inGitRepo, fetch := FetchOutcome.parsed issues }
          includeLabels excludeLabels limit "o/r" =
        processFetchedIssues issues excludeLabels limit) ∧
    processFetchedIssues
        [{ number := 1, title := "a", url := "ua", labels := [{ name := "Ready for Plan" }] },
         { number := 2, title := "b", url := "ub",
           labels := [{ name := "Ready for Plan" }, { name := "Claimed by Agent" }] }]
        ["Claimed by Agent"] 10 =
      [{ number := 1, title := "a", url := "ua", labels := ["Ready for Plan"] }] := by
  have hmain : ∀ (issues : List RawIssue) (excludeLabels : List String) (limit : Nat),
      processFetchedIssues issues excludeLabels limit =
        ((issues.filter (specKeep excludeLabels)).take limit).map convertIssue := by
    intro issues excludeLabels limit
    unfold processFetchedIssues
    cases excludeLabels with
    | nil =>
      rw [filter_specKeep_nil]
      simp
    | cons e es =>
      have hfun : keepIssue (e :: es) = specKeep (e :: es) :=
        funext fun i => keepIssue_eq_specKeep (e :: es) i
      rw [hfun]
      simp
  refine ⟨hmain, ?_, ?_, by decide⟩
  · intro issues excludeLabels limit
    exact ⟨(issues.filter (specKeep excludeLabels)).take limit,
      List.Sublist.trans (List.take_sublist _ _) (List.filter_sublist issues),
      hmain issues excludeLabels limit⟩
  · intro inGitRepo issues includeLabels excludeLabels limit
    have hb : (("o/r" : String) == "") = false := by decide
    unfold searchIssues searchIssuesBody
    rw [hb]
    simp

/-- C8: with a resolvable repository context (a configured repository or a
detected git working directory), a command-execution failure or a
JSON-decoding failure inside the issue search yields an empty result list
from `searchIssues` — the error is absorbed by the catch, not propagated. -/
theorem c8_search_failures_absorbed
    (inGitRepo : Bool) (includeLabels excludeLabels : List String) (limit : Nat)
    (repository m m2 : String)
    (hrepo : repository ≠ "" ∨ inGitRepo = true) :
    searchIssues { inGitRepo := inGitRepo, fetch := FetchOutcome.execFail m }
        includeLabels excludeLabels limit repository = [] ∧
    searchIssues { inGitRepo := inGitRepo, fetch := FetchOutcome.parseFail m2 }
        includeLabels excludeLabels limit repository = [] := by
  have hcond : (repository == "" && !inGitRepo) = false := by
    rcases hrepo with h | h
    · have hb : (repository == "") = false := by
        cases hx : repository == "" with
        | true => exact absurd (eq_of_beq hx) h
        | false => rfl
      rw [hb, Bool.false_and]
    · rw [h]
      simp
  constructor <;>
    · unfold searchIssues searchIssuesBody
      rw [hcond]
      simp

/-- C8 witness: a concrete failing fetch with a configured repository
produces the empty list. -/
theorem c8_search_failures_absorbed_witness :
    searchIssues { inGitRepo := false, fetch := FetchOutcome.execFail "boom" }
        [] [] 10 "o/r" = [] ∧
    searchIssues { inGitRepo := false, fetch := FetchOutcome.parseFail "bad json" }
        [] [] 10 "o/r" = [] :=
  c8_search_failures_absorbed false [] [] 10 "o/r" "boom" "bad json" (Or.inl (by decide))

/-- C2 counterexample: with no configured repository and no git working
directory, `findReadyIssues` returns the plain empty list — the same value
a genuinely successful empty fetch returns — while the body of
`searchIssues` had raised the missing-repository error that the catch then
swallowed.  The outcome is not error-flagged. -/
theorem c2_counterexample :
    findReadyIssues
        { inGitRepo := false,
          fetch := FetchOutcome.parsed [{ number := 9, title := "t", url := "u", labels := [] }] }
        "" = [] ∧
    searchIssuesBody
        { inGitRepo := false,
          fetch := FetchOutcome.parsed [{ number := 9, title := "t", url := "u", labels := [] }] }
        ["Ready for Plan"] ["Claimed by Agent"] 10 "" = Except.error notInRepoMsg ∧
    findReadyIssues { inGitRepo := true, fetch := FetchOutcome.parsed [] } "o/r" = [] :=
  ⟨rfl, rfl, rfl⟩

/-- C2 amended: with no configured repository and no detected git working
directory, `searchIssues` raises the missing-repository error internally
but its catch-all absorbs every failure, so `findReadyIssues` returns a
silently-successful empty list; the surfaced error-flagged outcome is
produced by the caller `_checkForReadyIssues`, which checks the repository
context itself and posts an error notification without fetching. -/
theorem c2_amended :
    ∀ (fetch : FetchOutcome) (claimExec : Nat → CmdResult),
      searchIssuesBody { inGitRepo := false, fetch := fetch }
          ["Ready for Plan"] ["Claimed by Agent"] 10 "" = Except.error notInRepoMsg ∧
      findReadyIssues { inGitRepo := false, fetch := fetch } "" = [] ∧
      checkForReadyIssues true ""
          { inGitRepo := false, fetch := fetch, claimExec := claimExec } =
        TickOutcome.repoError pollRepoErrMsg := by
  intro fetch claimExec
  exact ⟨rfl, rfl, rfl⟩

/-- C4: the configuration floor is not enforced by the code.  The schema of
package.json declares minimum 5 (and default 10), but `_loadConfiguration`
accepts the stored value verbatim, so a stored value of 1 second is used
unchanged and `setInterval` is scheduled with 1000 ms — below the claimed
5-second floor. -/
theorem c4_interval_floor_bug :
    loadPollingIntervalSeconds (some 1) = 1 ∧
    issuePollingIntervalMs (some 1) = 1000 ∧
    loadPollingIntervalSeconds (some 1) < schemaMinimumSeconds ∧
    loadPollingIntervalSeconds none = 10 := by
  refine ⟨rfl, rfl, by decide, rfl⟩

/-- C6: when the add-label call fails with a message matching the
label-not-found pattern, the executor creates the label exactly once and
retries the add exactly once (trace `[add, create, add]`); a failure of
the retried add propagates as the step's failure, a success of the retry
makes the step succeed, and a failure not matching the pattern propagates
immediately with neither a create nor a retry (trace `[add]`). -/
theorem c6_label_create_retry
    (env env2 env3 : Nat → CmdResult) (n : Nat)
    (label color desc m0 m0b m0c m2 s1 s1b s2 : String)
    (h0 : env 0 = CmdResult.err m0)
    (hm : labelNotFoundIn (wrapErr (editCmdStr n label) m0) label = true)
    (h1 : env 1 = CmdResult.ok s1)
    (h2 : env 2 = CmdResult.err m2)
    (h0b : env2 0 = CmdResult.err m0b)
    (hmb : labelNotFoundIn (wrapErr (editCmdStr n label) m0b) label = true)
    (h1b : env2 1 = CmdResult.ok s1b)
    (h2b : env2 2 = CmdResult.ok s2)
    (h0c : env3 0 = CmdResult.err m0c)
    (hmc : labelNotFoundIn (wrapErr (editCmdStr n label) m0c) label = false) :
    runAddLabelToIssue env n label color desc =
      (Except.error (wrapErr (editCmdStr n label) m2),
       [GhCmd.issueEditAddLabel n label, GhCmd.labelCreate label color desc,
        GhCmd.issueEditAddLabel n label]) ∧
    runAddLabelToIssue env2 n label color desc =
      (Except.ok (),
       [GhCmd.issueEditAddLabel n label, GhCmd.labelCreate label color desc,
        GhCmd.issueEditAddLabel n label]) ∧
    runAddLabelToIssue env3 n label color desc =
      (Except.error (wrapErr (editCmdStr n label) m0c),
       [GhCmd.issueEditAddLabel n label]) := by
  refine ⟨?_, ?_, ?_⟩
  · unfold runAddLabelToIssue
    rw [h0]
    simp [hm, h1, h2]
  · unfold runAddLabelToIssue
    rw [h0b]
    simp [hmb, h1b, h2b]
  · unfold runAddLabelToIssue
    rw [h0c]
    simp [hmc]

/-- C6 witness: the three oracles `envRetryFail`, `envRetryOk`,
`envNoMatch` realize the three scenarios for label `L`. -/
theorem c6_label_create_retry_witness :
    runAddLabelToIssue envRetryFail 3 "L" "0E8A16" "d" =
      (Except.error (wrapErr (editCmdStr 3 "L") "still failing"),
       [GhCmd.issueEditAddLabel 3 "L", GhCmd.labelCreate "L" "0E8A16" "d",
        GhCmd.issueEditAddLabel 3 "L"]) ∧
    runAddLabelToIssue envRetryOk 3 "L" "0E8A16" "d" =
      (Except.ok (),
       [GhCmd.issueEditAddLabel 3 "L", GhCmd.labelCreate "L" "0E8A16" "d",
        GhCmd.issueEditAddLabel 3 "L"]) ∧
    runAddLabelToIssue envNoMatch 3 "L" "0E8A16" "d" =
      (Except.error (wrapErr (editCmdStr 3 "L") "permission denied"),
       [GhCmd.issueEditAddLabel 3 "L"]) :=
  c6_label_create_retry envRetryFail envRetryOk envNoMatch 3
    "L" "0E8A16" "d"
    (apos ++ "L" ++ apos ++ " not found") (apos ++ "L" ++ apos ++ " not found")
    "permission denied" "still failing" "" "" ""
    rfl (by decide) rfl rfl rfl (by decide) rfl rfl rfl (by decide)

/-- C7: a failure of the branch-creation step never fails the claim.  For
every claim attempt inside a git repository in which step 1 (claim label)
succeeds and step 4 (branch-reference label) succeeds, `claimIssue`
returns `success := true` with the derived branch name, even though the
`git checkout -b` invocation failed — the conclusion does not depend on
the checkout outcome, which the catch of part_001 lines 347-350 swallows. -/
theorem c7_branch_failure_swallowed
    (env : ClaimEnv) (issue : GitHubIssue) (repository m3 : String)
    (hrepo : env.inGitRepo = true)
    (h1 : (claimStep1 env.exec issue.number).1 = Except.ok ())
    (h3 : env.exec (claimStep1 env.exec issue.number).2.length = CmdResult.err m3)
    (h4 : (claimStep4
        (shiftEnv env.exec
          ((claimStep1 env.exec issue.number).2.length + (claimBranchTrace env issue).length))
        issue.number (convertToBranchName issue.number issue.title)).1 = Except.ok ()) :
    (claimIssue env issue repository).1 =
      { success := true, branchName := convertToBranchName issue.number issue.title,
        error := none } := by
  have hE : claimStep1 env.exec issue.number =
      (Except.ok (), (claimStep1 env.exec issue.number).2) := by
    rw [← h1]
  have hE4 : claimStep4
      (shiftEnv env.exec
        ((claimStep1 env.exec issue.number).2.length + (claimBranchTrace env issue).length))
      issue.number (convertToBranchName issue.number issue.title) =
      (Except.ok (), (claimStep4
        (shiftEnv env.exec
          ((claimStep1 env.exec issue.number).2.length + (claimBranchTrace env issue).length))
        issue.number (convertToBranchName issue.number issue.title)).2) := by
    rw [← h4]
  unfold claimIssue
  rw [hrepo, hE, Bool.not_true, Bool.and_false]
  rw [if_neg Bool.false_ne_true]
  dsimp only
  rw [hE4]

/-- C7 witness: a concrete run in a git repository whose checkout fails but
whose labels succeed still reports success with the derived branch name. -/
theorem c7_branch_failure_swallowed_witness :
    (claimIssue envBranchFail issueBranchFail "").1 =
      { success := true, branchName := convertToBranchName 5 "Add logging",
        error := none } :=
  c7_branch_failure_swallowed envBranchFail issueBranchFail "" "branch already exists"
    rfl rfl rfl rfl

/-- C9 counterexample: a claim whose step 1 succeeds, whose branch name is
derived (step 4 is attempted under that name, as the trace shows), but
whose step 4 fails, returns `branchName = ""` — not the derived
identifier — because the outer catch of part_001 lines 367-374 always
returns the empty branch name on failure. -/
theorem c9_counterexample :
    (claimIssue envStep4Fail issueStep4Fail "o/r").1.branchName = "" ∧
    (claimIssue envStep4Fail issueStep4Fail "o/r").1.success = false ∧
    (claimIssue envStep4Fail issueStep4Fail "o/r").2 =
      [GhCmd.issueEditAddLabel 7 "Claimed by Agent",
       GhCmd.issueEditAddLabel 7 (branchLabelOf (convertToBranchName 7 "Fix the bug"))] ∧
    convertToBranchName 7 "Fix the bug" = "issue-7-fix-the-bug" := by
  refine ⟨by decide, by decide, by decide, by decide⟩

/-- C9 amended: `branchName` is the derived identifier exactly on a fully
successful claim; every failure result — including one that reached
branch-naming and failed only at the branch-reference-label step — carries
the empty branch name. -/
theorem c9_amended (env : ClaimEnv) (issue : GitHubIssue) (repository : String) :
    (claimIssue env issue repository).1.branchName =
      cond (claimIssue env issue repository).1.success
        (convertToBranchName issue.number issue.title) "" := by
  unfold claimIssue
  split
  · rfl
  · split
    · rfl
    · rename_i a tr1 heq
      generalize claimStep4 (shiftEnv env.exec (tr1.length + (claimBranchTrace env issue).length))
          issue.number (convertToBranchName issue.number issue.title) = s4
      rcases s4 with ⟨r4, tr4⟩
      cases r4 <;> rfl

/-- C10: called with no repository argument while `isGitRepository()`
reports false, `claimIssue` returns the structured failure
`{success := false, branchName := "", error := notInRepoMsg}` with an
empty command trace — no label-add, label-create or branch-creation
command is executed — and in general every `claimIssue` outcome is
structured: the error field is populated exactly on failure (the model is
a total function: no exception escapes the outer catch). -/
theorem c10_no_repo_structured (env : ClaimEnv) (issue : GitHubIssue)
    (h : env.inGitRepo = false) :
    claimIssue env issue "" =
      ({ success := false, branchName := "", error := some notInRepoMsg }, []) ∧
    ∀ (env2 : ClaimEnv) (issue2 : GitHubIssue) (repository : String),
      (claimIssue env2 issue2 repository).1.error.isSome =
        !(claimIssue env2 issue2 repository).1.success := by
  constructor
  · unfold claimIssue
    rw [h]
    rfl
  · intro env2 issue2 repository
    unfold claimIssue
    split
    · rfl
    · split
      · rfl
      · rename_i a tr1 heq
        generalize claimStep4
            (shiftEnv env2.exec (tr1.length + (claimBranchTrace env2 issue2).length))
            issue2.number (convertToBranchName issue2.number issue2.title) = s4
        rcases s4 with ⟨r4, tr4⟩
        cases r4 <;> rfl

/-- C10 witness: the concrete no-repository run. -/
theorem c10_no_repo_structured_witness :
    claimIssue envNoRepo { number := 1, title := "t", url := "u", labels := [] } "" =
      ({ success := false, branchName := "", error := some notInRepoMsg }, []) :=
  (c10_no_repo_structured envNoRepo { number := 1, title := "t", url := "u", labels := [] }
    rfl).1

theorem interleaving_swap {α : Type} {xs ys zs : List α}
    (h : Interleaving xs ys zs) : Interleaving ys xs zs := by
  induction h with
  | nil => exact Interleaving.nil
  | left x h ih => exact Interleaving.right x ih
  | right y h ih => exact Interleaving.left y ih

theorem interleaving_filter {α : Type} (p : α → Bool) {xs ys zs : List α}
    (h : Interleaving xs ys zs)
    (hx : ∀ x ∈ xs, p x = true) (hy : ∀ y ∈ ys, p y = false) :
    zs.filter p = xs := by
  induction h with
  | nil => rfl
  | left x h ih =>
    rw [List.filter_cons, hx x (List.mem_cons_self x _), if_pos rfl,
      ih (fun a ha => hx a (List.mem_cons_of_mem x ha)) hy]
  | right y h ih =>
    rw [List.filter_cons, hy y (List.mem_cons_self y _), if_neg Bool.false_ne_true,
      ih hx (fun a ha => hy a (List.mem_cons_of_mem y ha))]

theorem reachable_tBad : ReachableTwoClaims tBad := by
  unfold ReachableTwoClaims taskTrace claimProtocolSteps tBad
  simp only [List.map]
  exact Interleaving.left _ (Interleaving.right _ (Interleaving.left _ (Interleaving.right _
    (Interleaving.left _ (Interleaving.right _ (Interleaving.left _ (Interleaving.right _
      (Interleaving.left _ (Interleaving.right _ Interleaving.nil)))))))))

/-- C1 counterexample: the fully alternating schedule `tBad` is a
reachable event order of two concurrent claim requests (no guard state
exists to block it), and it is not serialized: each request's first
label-add step occurs before the other request emits its `ClaimResult`. -/
theorem c1_counterexample : ReachableTwoClaims tBad ∧ ¬ SerializedPair tBad :=
  ⟨reachable_tBad, by unfold SerializedPair; decide⟩

/-- C1 amended: claims are not globally serialized — the webview message
handler and the poll path call `claimIssue` with no in-flight guard, so the
reachable schedules of two concurrent claim requests are all the
order-preserving interleavings of their step sequences, including
non-serialized ones in which the second request begins its label-add
before the first produces its result.  What the code does guarantee: every
reachable schedule preserves each request's program order (its own steps
occur exactly in protocol order), and a single poll tick invokes at most
one claim (`_checkForReadyIssues` processes only the first ready issue). -/
theorem c1_amended :
    (∀ t, ReachableTwoClaims t →
      t.filter (fun e => e.1 == false) = taskTrace false ∧
      t.filter (fun e => e.1 == true) = taskTrace true) ∧
    (∃ t, ReachableTwoClaims t ∧ ¬ SerializedPair t) ∧
    (∀ (authenticated : Bool) (repository : String) (env : PollEnv),
      tickClaimCount (checkForReadyIssues authenticated repository env) ≤ 1) := by
  refine ⟨?_, ⟨tBad, reachable_tBad, by unfold SerializedPair; decide⟩, ?_⟩
  · intro t h
    constructor
    · refine interleaving_filter _ h ?_ ?_
      · intro x hx
        simp only [taskTrace, List.mem_map] at hx
        rcases hx with ⟨s, _, rfl⟩
        rfl
      · intro y hy
        simp only [taskTrace, List.mem_map] at hy
        rcases hy with ⟨s, _, rfl⟩
        rfl
    · refine interleaving_filter _ (interleaving_swap h) ?_ ?_
      · intro x hx
        simp only [taskTrace, List.mem_map] at hx
        rcases hx with ⟨s, _, rfl⟩
        rfl
      · intro y hy
        simp only [taskTrace, List.mem_map] at hy
        rcases hy with ⟨s, _, rfl⟩
        rfl
  · intro authenticated repository env
    unfold checkForReadyIssues
    split
    · exact Nat.zero_le 1
    · split
      · exact Nat.zero_le 1
      · split
        · exact Nat.zero_le 1
        · exact Nat.le_refl 1

/-- C1 amended witness: the program-order projection evaluated on the
concrete reachable schedule `tBad`. -/
theorem c1_amended_witness :
    tBad.filter (fun e => e.1 == false) = taskTrace false :=
  (c1_amended.1 tBad reachable_tBad).1
